import Mathlib

set_option maxRecDepth 8192

/-!
Shallow embedding of the gomemcached binary-protocol core: the header codec,
frame reader and packet transmitter shared by the client (client/mc.go) and the
server (server/mc_conn_handler.go), together with the client Stats loop and the
server per-connection dispatch loop.  Bytes are modelled as natural numbers
below 256, byte streams as lists, and machine integers as Nat with explicit
reduction modulo 2^w where the Go code truncates or wraps.
-/

namespace Gomemcached

/-- Modelled from the spec: header length constant HDR_LEN of the gomemcached
package root (not under src); the spec fixes a 24-byte header. -/
def HDR_LEN : Nat := 24

/-- Modelled from the spec: request magic byte 0x80 (REQ_MAGIC). -/
def REQ_MAGIC : Nat := 0x80

/-- Modelled from the spec: response magic byte 0x81 (RES_MAGIC). -/
def RES_MAGIC : Nat := 0x81

/-- server/mc_conn_handler.go: `var MaxBodyLen = uint32(1 * 1e6)`. -/
def MaxBodyLen : Nat := 1000000

/-- client/mc.go: `const bufsize = 1024`, the bufio.Writer size of the client. -/
def bufsize : Nat := 1024

/-- Modelled from the spec: MCRequest of the gomemcached package root (not
under src) as used by both files: opcode, vbucket, opaque, CAS, extras, key,
value.  The per-packet response channel is not a data field here; the dispatch
model below passes the external handler explicitly. -/
structure MCRequest where
  Opcode : Nat
  Cas : Nat
  Opaque : Nat
  VBucket : Nat
  Extras : List Nat
  Key : List Nat
  Body : List Nat
  deriving DecidableEq

/-- Modelled from the spec: MCResponse of the gomemcached package root (not
under src): opcode, status, opaque, CAS, extras, key, value and the fatal
flag.  Fields a decoder does not assign keep the Go zero value. -/
structure MCResponse where
  Opcode : Nat
  Status : Nat
  Opaque : Nat
  Cas : Nat
  Extras : List Nat
  Key : List Nat
  Body : List Nat
  Fatal : Bool
  deriving DecidableEq

/-- The errors the two files produce: BadMagic carries the offending first
byte (server struct field `was`; the client formats the same byte into its
message), the oversized-body error carries the computed body length, and eof
stands for io.ReadFull failing for lack of bytes. -/
inductive MCErr where
  | badMagic (was : Nat)
  | tooBig (bodyLen : Nat)
  | eof
  | shortWrite
  deriving DecidableEq

/-- Big-endian encoding of `w` bytes, as binary.BigEndian.PutUintN writes the
value reduced modulo 2^(8w): byte i holds (n / 256^(w-1-i)) % 256. -/
def encBE : Nat → Nat → List Nat
  | 0, _ => []
  | w + 1, n => (n / 256 ^ w) % 256 :: encBE w n

/-- Big-endian value of a byte list, as binary.BigEndian.UintN reads it. -/
def beVal (l : List Nat) : Nat := l.foldl (fun a b => a * 256 + b) 0

/-- Reduction to uint32, Go conversion uint32(x). -/
def u32 (n : Nat) : Nat := n % 2 ^ 32

/-- Wrapping uint32 subtraction a - b as Go computes it. -/
def u32sub (a b : Nat) : Nat := (u32 a + 2 ^ 32 - u32 b) % 2 ^ 32

/-- hdrBytes[i]: indexing into a byte list (callers guarantee the bound). -/
def byteAt (l : List Nat) (i : Nat) : Nat := l.getD i 0

/-- client/mc.go transmitRequest: the byte sequence pushed through the writer
for one request packet.  writeUint16 of the key length and writeByte of the
extras length truncate as the Go conversions uint16(len) and uint8(len) do;
the total-body field is the uint32 sum of the three section lengths, which
equals their Nat sum reduced modulo 2^32, the reduction encBE 4 applies. -/
def transmitRequestBytes (req : MCRequest) : List Nat :=
  REQ_MAGIC :: req.Opcode % 256 :: encBE 2 req.Key.length ++
    req.Extras.length % 256 :: 0 :: encBE 2 req.VBucket ++
    encBE 4 (req.Body.length + req.Key.length + req.Extras.length) ++
    encBE 4 req.Opaque ++ encBE 8 req.Cas ++
    req.Extras ++ req.Key ++ req.Body

/-- server/mc_conn_handler.go transmitResponse: the byte sequence written for
one response packet; opcode and opaque come from the request, everything else
from the response. -/
def transmitResponseBytes (req : MCRequest) (res : MCResponse) : List Nat :=
  RES_MAGIC :: req.Opcode % 256 :: encBE 2 res.Key.length ++
    res.Extras.length % 256 :: 0 :: encBE 2 res.Status ++
    encBE 4 (res.Body.length + res.Key.length + res.Extras.length) ++
    encBE 4 req.Opaque ++ encBE 8 res.Cas ++
    res.Extras ++ res.Key ++ res.Body

/-- server/mc_conn_handler.go grokHeader: validates the request magic, reads
key length (bytes 2-3), extras length (byte 4), vbucket (bytes 6-7), total
body length (bytes 8-11), computes the body length by wrapping uint32
subtraction, rejects it when above MaxBodyLen, and allocates zeroed buffers
of the decoded sizes; opaque from bytes 12-15, CAS from bytes 16-23. -/
def grokHeaderReq (h : List Nat) : Except MCErr MCRequest :=
  if byteAt h 0 ≠ REQ_MAGIC then .error (.badMagic (byteAt h 0)) else
  let keyLen := beVal ((h.drop 2).take 2)
  let extrasLen := byteAt h 4
  let bodyLen := u32sub (u32sub (beVal ((h.drop 8).take 4)) keyLen) extrasLen
  if bodyLen > MaxBodyLen then .error (.tooBig bodyLen) else
  .ok { Opcode := byteAt h 1
        Cas := beVal ((h.drop 16).take 8)
        Opaque := beVal ((h.drop 12).take 4)
        VBucket := beVal ((h.drop 6).take 2)
        Extras := List.replicate extrasLen 0
        Key := List.replicate keyLen 0
        Body := List.replicate bodyLen 0 }

/-- client/mc.go grokHeader: validates the response magic, sizes the key and
extras buffers from bytes 2-3 and 4, takes the status from byte 7 alone
(uint16(hdrBytes[7])), computes the body length by wrapping uint32
subtraction with no bound check, and reads CAS from bytes 16-23.  The lines
assigning Opcode from byte 1 and Opaque from bytes 12-15 are commented out in
the source, so both fields keep the Go zero value. -/
def grokHeaderRes (h : List Nat) : Except MCErr MCResponse :=
  if byteAt h 0 ≠ RES_MAGIC then .error (.badMagic (byteAt h 0)) else
  let keyLen := beVal ((h.drop 2).take 2)
  let extrasLen := byteAt h 4
  let bodyLen := u32sub (u32sub (beVal ((h.drop 8).take 4)) keyLen) extrasLen
  .ok { Opcode := 0
        Status := byteAt h 7
        Opaque := 0
        Cas := beVal ((h.drop 16).take 8)
        Extras := List.replicate extrasLen 0
        Key := List.replicate keyLen 0
        Body := List.replicate bodyLen 0
        Fatal := false }

/-- io.ReadFull into a buffer of length n from a stream: yields the bytes read
and the remaining stream, or fails when fewer than n bytes are available. -/
def readFull (s : List Nat) (n : Nat) : Except MCErr (List Nat × List Nat) :=
  if n ≤ s.length then .ok (s.take n, s.drop n) else .error .eof

/-- server readContents (readOb three times): fills the extras, key and body
buffers of the decoded request, in that order, each by a full-length read. -/
def readContentsReq (s : List Nat) (rv : MCRequest) :
    Except MCErr (MCRequest × List Nat) := do
  let (e, s) ← readFull s rv.Extras.length
  let (k, s) ← readFull s rv.Key.length
  let (b, s) ← readFull s rv.Body.length
  .ok ({ rv with Extras := e, Key := k, Body := b }, s)

/-- client readContents: same three full-length reads into the decoded
response. -/
def readContentsRes (s : List Nat) (rv : MCResponse) :
    Except MCErr (MCResponse × List Nat) := do
  let (e, s) ← readFull s rv.Extras.length
  let (k, s) ← readFull s rv.Key.length
  let (b, s) ← readFull s rv.Body.length
  .ok ({ rv with Extras := e, Key := k, Body := b }, s)

/-- server ReadPacket: read the 24 header bytes, decode them, then read the
three sections; yields the request and the unread remainder of the stream. -/
def ReadPacket (s : List Nat) : Except MCErr (MCRequest × List Nat) := do
  let (hdr, s) ← readFull s HDR_LEN
  let rv ← grokHeaderReq hdr
  readContentsReq s rv

/-- client getResponse: read the 24 header bytes, decode them, then read the
three sections; yields the response and the unread remainder. -/
def getResponse (s : List Nat) : Except MCErr (MCResponse × List Nat) := do
  let (hdr, s) ← readFull s HDR_LEN
  let rv ← grokHeaderRes hdr
  readContentsRes s rv

theorem readFull_ok {s : List Nat} {n : Nat} {d s2 : List Nat}
    (h : readFull s n = .ok (d, s2)) :
    d = s.take n ∧ s2 = s.drop n ∧ n ≤ s.length := by
  unfold readFull at h
  split at h
  · cases h
    exact ⟨rfl, rfl, by assumption⟩
  · cases h

theorem readContentsRes_length {s : List Nat} {rv r : MCResponse} {s2 : List Nat}
    (h : readContentsRes s rv = .ok (r, s2)) : s2.length ≤ s.length := by
  unfold readContentsRes at h
  simp only [bind, Except.bind] at h
  cases he : readFull s rv.Extras.length with
  | error e => simp only [he] at h; exact Except.noConfusion h
  | ok pe =>
    obtain ⟨d1, s1⟩ := pe
    simp only [he] at h
    cases hk : readFull s1 rv.Key.length with
    | error e => simp only [hk] at h; exact Except.noConfusion h
    | ok pk =>
      obtain ⟨d2, t2⟩ := pk
      simp only [hk] at h
      cases hb : readFull t2 rv.Body.length with
      | error e => simp only [hb] at h; exact Except.noConfusion h
      | ok pb =>
        obtain ⟨d3, t3⟩ := pb
        simp only [hb, Except.ok.injEq, Prod.mk.injEq] at h
        obtain ⟨h1, h2, h3⟩ := readFull_ok he
        obtain ⟨h4, h5, h6⟩ := readFull_ok hk
        obtain ⟨h7, h8, h9⟩ := readFull_ok hb
        have hlen : t3.length ≤ s.length := by
          subst h2; subst h5; subst h8
          simp only [List.length_drop]
          omega
        rw [← h.2]
        exact hlen

theorem readContentsReq_length {s : List Nat} {rv r : MCRequest} {s2 : List Nat}
    (h : readContentsReq s rv = .ok (r, s2)) : s2.length ≤ s.length := by
  unfold readContentsReq at h
  simp only [bind, Except.bind] at h
  cases he : readFull s rv.Extras.length with
  | error e => simp only [he] at h; exact Except.noConfusion h
  | ok pe =>
    obtain ⟨d1, s1⟩ := pe
    simp only [he] at h
    cases hk : readFull s1 rv.Key.length with
    | error e => simp only [hk] at h; exact Except.noConfusion h
    | ok pk =>
      obtain ⟨d2, t2⟩ := pk
      simp only [hk] at h
      cases hb : readFull t2 rv.Body.length with
      | error e => simp only [hb] at h; exact Except.noConfusion h
      | ok pb =>
        obtain ⟨d3, t3⟩ := pb
        simp only [hb, Except.ok.injEq, Prod.mk.injEq] at h
        obtain ⟨h1, h2, h3⟩ := readFull_ok he
        obtain ⟨h4, h5, h6⟩ := readFull_ok hk
        obtain ⟨h7, h8, h9⟩ := readFull_ok hb
        have hlen : t3.length ≤ s.length := by
          subst h2; subst h5; subst h8
          simp only [List.length_drop]
          omega
        rw [← h.2]
        exact hlen

/-- A successful getResponse consumes at least the 24 header bytes. -/
theorem getResponse_length {s : List Nat} {r : MCResponse} {s2 : List Nat}
    (h : getResponse s = .ok (r, s2)) : s2.length + HDR_LEN ≤ s.length := by
  unfold getResponse at h
  simp only [bind, Except.bind] at h
  cases hh : readFull s HDR_LEN with
  | error e => simp only [hh] at h; exact Except.noConfusion h
  | ok ph =>
    obtain ⟨hd, s1⟩ := ph
    simp only [hh] at h
    cases hg : grokHeaderRes hd with
    | error e => simp only [hg] at h; exact Except.noConfusion h
    | ok rv =>
      simp only [hg] at h
      obtain ⟨h1, h2, h3⟩ := readFull_ok hh
      have h4 := readContentsRes_length h
      subst h2
      simp only [List.length_drop] at h4
      omega

/-- A successful ReadPacket consumes at least the 24 header bytes. -/
theorem ReadPacket_length {s : List Nat} {r : MCRequest} {s2 : List Nat}
    (h : ReadPacket s = .ok (r, s2)) : s2.length + HDR_LEN ≤ s.length := by
  unfold ReadPacket at h
  simp only [bind, Except.bind] at h
  cases hh : readFull s HDR_LEN with
  | error e => simp only [hh] at h; exact Except.noConfusion h
  | ok ph =>
    obtain ⟨hd, s1⟩ := ph
    simp only [hh] at h
    cases hg : grokHeaderReq hd with
    | error e => simp only [hg] at h; exact Except.noConfusion h
    | ok rv =>
      simp only [hg] at h
      obtain ⟨h1, h2, h3⟩ := readFull_ok hh
      have h4 := readContentsReq_length h
      subst h2
      simp only [List.length_drop] at h4
      omega


/-- client/mc.go Stats, the response-accumulation loop: repeatedly read a
response; a read error returns the entries accumulated so far with the error;
an empty key stops the loop; otherwise (key, value) is appended and the loop
continues.  The preceding transmit of the STAT request happens on the write
side of the connection and is modelled by the transmitter above. -/
def statsLoop (s : List Nat) : List (List Nat × List Nat) × Option MCErr :=
  match h : getResponse s with
  | .error e => ([], some e)
  | .ok (res, s2) =>
    if res.Key = [] then ([], none)
    else
      let p := statsLoop s2
      ((res.Key, res.Body) :: p.1, p.2)
termination_by s.length
decreasing_by
  have := getResponse_length h
  simp only [HDR_LEN] at this
  omega

/-- One event of the server dispatch loop: a request packet fully read and
decoded, or a response packet written to the connection. -/
inductive Ev where
  | readEv (req : MCRequest)
  | writeEv (bytes : List Nat)
  deriving DecidableEq

/-- server handleMessage: read and decode one packet (on failure, return false
with no events); hand the request to the external handler (the channel
rendezvous with the worker that consumes reqChannel, modelled as a function);
if the response is fatal, return false without writing; otherwise write the
response packet and return true.  Yields (ret, remaining stream, events). -/
def handleMessageTr (handler : MCRequest → MCResponse) (s : List Nat) :
    Bool × List Nat × List Ev :=
  match ReadPacket s with
  | .error _ => (false, s, [])
  | .ok (req, s2) =>
    let res := handler req
    if res.Fatal then (false, s2, [.readEv req])
    else (true, s2, [.readEv req, .writeEv (transmitResponseBytes req res)])

theorem handleMessageTr_length {handler : MCRequest → MCResponse}
    {s : List Nat} {s2 : List Nat} {evs : List Ev}
    (h : handleMessageTr handler s = (true, s2, evs)) : s2.length < s.length := by
  unfold handleMessageTr at h
  cases hr : ReadPacket s with
  | error e => rw [hr] at h; exact absurd h (by simp)
  | ok p =>
    obtain ⟨req, s3⟩ := p
    rw [hr] at h
    dsimp only at h
    by_cases hf : (handler req).Fatal
    · rw [if_pos hf] at h
      exact absurd h (by simp)
    · rw [if_neg hf] at h
      injection h with h1 h2
      injection h2 with h2a h2b
      have := ReadPacket_length hr
      simp only [HDR_LEN] at this
      rw [← h2a]
      omega

/-- server HandleIO: run handleMessage until it returns false, then close the
connection; the trace of read and write events in order. -/
def handleConn (handler : MCRequest → MCResponse) (s : List Nat) : List Ev :=
  match h : handleMessageTr handler s with
  | (true, s2, evs) => evs ++ handleConn handler s2
  | (false, _, evs) => evs
termination_by s.length
decreasing_by
  exact handleMessageTr_length h

/-- The underlying connection write performed by bufio Flush: a connection
that accepts at most cap bytes delivers the buffered packet whole or fails
the flush (a short or failed write). -/
def flushTo (cap : Nat) (buffered : List Nat) : Except MCErr (List Nat) :=
  if buffered.length ≤ cap then .ok buffered else .error .shortWrite

/-- client transmitRequest writing through its 1024-byte bufio.Writer onto a
connection accepting cap bytes, for packets within the buffer: the section
writes land in the buffer and cannot fail, so no panic reaches the recover
and the returned error is nil; the final o.Flush() performs the one
underlying write and its error is discarded by the source.  Yields (the error
transmitRequest returns to its caller, the bytes the connection accepted). -/
def transmitRequestOn (cap : Nat) (req : MCRequest) : Option MCErr × List Nat :=
  match flushTo cap (transmitRequestBytes req) with
  | .ok bs => (none, bs)
  | .error _ => (none, [])

/-- Client.Transmit: calls transmitRequest and drops its result; the method
has no error return at all. -/
def Transmit (cap : Nat) (req : MCRequest) : List Nat :=
  (transmitRequestOn cap req).2

/-- server transmitResponse on a connection accepting cap bytes (packet within
the bufio buffer): writeBytes returns its error but writeByte, writeUintN and
transmitResponse ignore it, and the final o.Flush() error is also ignored;
transmitResponse has no error return.  Yields the bytes the connection
accepted. -/
def transmitResponseOn (cap : Nat) (req : MCRequest) (res : MCResponse) :
    List Nat :=
  match flushTo cap (transmitResponseBytes req res) with
  | .ok bs => bs
  | .error _ => []

/-- server handleMessage on a connection whose write side accepts cap bytes:
the return value ret (continue the loop?) together with the response bytes the
connection actually accepted; ret is computed as not res.Fatal regardless of
the outcome of the write. -/
def handleMessageOn (cap : Nat) (handler : MCRequest → MCResponse)
    (s : List Nat) : Bool × List Nat :=
  match ReadPacket s with
  | .error _ => (false, [])
  | .ok (req, _) =>
    let res := handler req
    if res.Fatal then (false, [])
    else (true, transmitResponseOn cap req res)

theorem encBE_length (w n : Nat) : (encBE w n).length = w := by
  induction w generalizing n with
  | zero => rfl
  | succ w ih => simp [encBE, ih]

theorem foldl_encBE (w n a : Nat) :
    (encBE w n).foldl (fun x b => x * 256 + b) a = a * 256 ^ w + n % 256 ^ w := by
  induction w generalizing n a with
  | zero => simp [encBE, Nat.mod_one]
  | succ w ih =>
    simp only [encBE, List.foldl_cons, ih]
    rw [pow_succ, Nat.mod_mul]
    ring

theorem beVal_encBE (w n : Nat) : beVal (encBE w n) = n % 256 ^ w := by
  have h := foldl_encBE w n 0
  simpa [beVal] using h

theorem beVal_two (a b : Nat) : beVal [a, b] = a * 256 + b := by
  simp [beVal]

theorem beVal_four (a b c d : Nat) :
    beVal [a, b, c, d] = ((a * 256 + b) * 256 + c) * 256 + d := by
  simp [beVal]

theorem beVal_eight (a b c d e f g h : Nat) :
    beVal [a, b, c, d, e, f, g, h] =
      ((((((a * 256 + b) * 256 + c) * 256 + d) * 256 + e) * 256 + f) * 256 +
        g) * 256 + h := by
  simp [beVal]

/-- Evaluation of the server header decoder on an explicit 24-byte header
with the request magic in front. -/
theorem grokHeaderReq_eval (a1 a2 a3 a4 a5 a6 a7 a8 a9 a10 a11 a12 a13 a14
    a15 a16 a17 a18 a19 a20 a21 a22 a23 : Nat) :
    grokHeaderReq (REQ_MAGIC :: a1 :: a2 :: a3 :: a4 :: a5 :: a6 :: a7 :: a8 ::
        a9 :: a10 :: a11 :: a12 :: a13 :: a14 :: a15 :: a16 :: a17 :: a18 ::
        a19 :: a20 :: a21 :: a22 :: a23 :: []) =
      (if u32sub (u32sub (((a8 * 256 + a9) * 256 + a10) * 256 + a11)
            (a2 * 256 + a3)) a4 > MaxBodyLen
       then .error (.tooBig (u32sub (u32sub (((a8 * 256 + a9) * 256 + a10) *
              256 + a11) (a2 * 256 + a3)) a4))
       else .ok
        { Opcode := a1
          Cas := ((((((a16 * 256 + a17) * 256 + a18) * 256 + a19) * 256 +
            a20) * 256 + a21) * 256 + a22) * 256 + a23
          Opaque := ((a12 * 256 + a13) * 256 + a14) * 256 + a15
          VBucket := a6 * 256 + a7
          Extras := List.replicate a4 0
          Key := List.replicate (a2 * 256 + a3) 0
          Body := List.replicate (u32sub (u32sub (((a8 * 256 + a9) * 256 +
            a10) * 256 + a11) (a2 * 256 + a3)) a4) 0 }) := by
  have h2 : ((REQ_MAGIC :: a1 :: a2 :: a3 :: a4 :: a5 :: a6 :: a7 :: a8 ::
      a9 :: a10 :: a11 :: a12 :: a13 :: a14 :: a15 :: a16 :: a17 :: a18 ::
      a19 :: a20 :: a21 :: a22 :: a23 :: []).drop 2).take 2 = [a2, a3] := rfl
  have h6 : ((REQ_MAGIC :: a1 :: a2 :: a3 :: a4 :: a5 :: a6 :: a7 :: a8 ::
      a9 :: a10 :: a11 :: a12 :: a13 :: a14 :: a15 :: a16 :: a17 :: a18 ::
      a19 :: a20 :: a21 :: a22 :: a23 :: []).drop 6).take 2 = [a6, a7] := rfl
  have h8 : ((REQ_MAGIC :: a1 :: a2 :: a3 :: a4 :: a5 :: a6 :: a7 :: a8 ::
      a9 :: a10 :: a11 :: a12 :: a13 :: a14 :: a15 :: a16 :: a17 :: a18 ::
      a19 :: a20 :: a21 :: a22 :: a23 :: []).drop 8).take 4 =
      [a8, a9, a10, a11] := rfl
  have h12 : ((REQ_MAGIC :: a1 :: a2 :: a3 :: a4 :: a5 :: a6 :: a7 :: a8 ::
      a9 :: a10 :: a11 :: a12 :: a13 :: a14 :: a15 :: a16 :: a17 :: a18 ::
      a19 :: a20 :: a21 :: a22 :: a23 :: []).drop 12).take 4 =
      [a12, a13, a14, a15] := rfl
  have h16 : ((REQ_MAGIC :: a1 :: a2 :: a3 :: a4 :: a5 :: a6 :: a7 :: a8 ::
      a9 :: a10 :: a11 :: a12 :: a13 :: a14 :: a15 :: a16 :: a17 :: a18 ::
      a19 :: a20 :: a21 :: a22 :: a23 :: []).drop 16).take 8 =
      [a16, a17, a18, a19, a20, a21, a22, a23] := rfl
  unfold grokHeaderReq
  rw [if_neg (by simp [byteAt])]
  simp only [h2, h6, h8, h12, h16, beVal_two, beVal_four, beVal_eight]
  rfl

/-- Evaluation of the client header decoder on an explicit 24-byte header
with the response magic in front. -/
theorem grokHeaderRes_eval (a1 a2 a3 a4 a5 a6 a7 a8 a9 a10 a11 a12 a13 a14
    a15 a16 a17 a18 a19 a20 a21 a22 a23 : Nat) :
    grokHeaderRes (RES_MAGIC :: a1 :: a2 :: a3 :: a4 :: a5 :: a6 :: a7 :: a8 ::
        a9 :: a10 :: a11 :: a12 :: a13 :: a14 :: a15 :: a16 :: a17 :: a18 ::
        a19 :: a20 :: a21 :: a22 :: a23 :: []) =
      .ok
        { Opcode := 0
          Status := a7
          Opaque := 0
          Cas := ((((((a16 * 256 + a17) * 256 + a18) * 256 + a19) * 256 +
            a20) * 256 + a21) * 256 + a22) * 256 + a23
          Extras := List.replicate a4 0
          Key := List.replicate (a2 * 256 + a3) 0
          Body := List.replicate (u32sub (u32sub (((a8 * 256 + a9) * 256 +
            a10) * 256 + a11) (a2 * 256 + a3)) a4) 0
          Fatal := false } := by
  have h2 : ((RES_MAGIC :: a1 :: a2 :: a3 :: a4 :: a5 :: a6 :: a7 :: a8 ::
      a9 :: a10 :: a11 :: a12 :: a13 :: a14 :: a15 :: a16 :: a17 :: a18 ::
      a19 :: a20 :: a21 :: a22 :: a23 :: []).drop 2).take 2 = [a2, a3] := rfl
  have h8 : ((RES_MAGIC :: a1 :: a2 :: a3 :: a4 :: a5 :: a6 :: a7 :: a8 ::
      a9 :: a10 :: a11 :: a12 :: a13 :: a14 :: a15 :: a16 :: a17 :: a18 ::
      a19 :: a20 :: a21 :: a22 :: a23 :: []).drop 8).take 4 =
      [a8, a9, a10, a11] := rfl
  have h16 : ((RES_MAGIC :: a1 :: a2 :: a3 :: a4 :: a5 :: a6 :: a7 :: a8 ::
      a9 :: a10 :: a11 :: a12 :: a13 :: a14 :: a15 :: a16 :: a17 :: a18 ::
      a19 :: a20 :: a21 :: a22 :: a23 :: []).drop 16).take 8 =
      [a16, a17, a18, a19, a20, a21, a22, a23] := rfl
  unfold grokHeaderRes
  rw [if_neg (by simp [byteAt])]
  simp only [h2, h8, h16, beVal_two, beVal_four, beVal_eight]
  rfl

theorem readFull_exact (l r : List Nat) (n : Nat) (h : l.length = n) :
    readFull (l ++ r) n = .ok (l, r) := by
  unfold readFull
  rw [if_pos (by rw [List.length_append, h]; omega)]
  rw [List.take_left' h, List.drop_left' h]

theorem readContentsReq_exact (rv : MCRequest) (E K B rest : List Nat)
    (he : rv.Extras.length = E.length) (hk : rv.Key.length = K.length)
    (hb : rv.Body.length = B.length) :
    readContentsReq (E ++ (K ++ (B ++ rest))) rv =
      .ok ({ rv with Extras := E, Key := K, Body := B }, rest) := by
  unfold readContentsReq
  rw [he, hk, hb]
  rw [readFull_exact E _ _ rfl]
  simp only [bind, Except.bind]
  rw [readFull_exact K _ _ rfl]
  dsimp only
  rw [readFull_exact B _ _ rfl]

theorem readContentsRes_exact (rv : MCResponse) (E K B rest : List Nat)
    (he : rv.Extras.length = E.length) (hk : rv.Key.length = K.length)
    (hb : rv.Body.length = B.length) :
    readContentsRes (E ++ (K ++ (B ++ rest))) rv =
      .ok ({ rv with Extras := E, Key := K, Body := B }, rest) := by
  unfold readContentsRes
  rw [he, hk, hb]
  rw [readFull_exact E _ _ rfl]
  simp only [bind, Except.bind]
  rw [readFull_exact K _ _ rfl]
  dsimp only
  rw [readFull_exact B _ _ rfl]

/-- readFull of the 24-byte header at the front of a stream. -/
theorem readFull_hdr (a0 a1 a2 a3 a4 a5 a6 a7 a8 a9 a10 a11 a12 a13 a14 a15
    a16 a17 a18 a19 a20 a21 a22 a23 : Nat) (r : List Nat) :
    readFull ((a0 :: a1 :: a2 :: a3 :: a4 :: a5 :: a6 :: a7 :: a8 :: a9 ::
        a10 :: a11 :: a12 :: a13 :: a14 :: a15 :: a16 :: a17 :: a18 :: a19 ::
        a20 :: a21 :: a22 :: a23 :: []) ++ r) HDR_LEN =
      .ok (a0 :: a1 :: a2 :: a3 :: a4 :: a5 :: a6 :: a7 :: a8 :: a9 ::
        a10 :: a11 :: a12 :: a13 :: a14 :: a15 :: a16 :: a17 :: a18 :: a19 ::
        a20 :: a21 :: a22 :: a23 :: [], r) :=
  readFull_exact _ _ _ rfl

/-- The request packet split into its 24 header bytes and its sections. -/
theorem transmitRequestBytes_split (req : MCRequest) :
    transmitRequestBytes req =
      (REQ_MAGIC :: req.Opcode % 256 ::
        req.Key.length / 256 % 256 :: req.Key.length % 256 ::
        req.Extras.length % 256 :: 0 ::
        req.VBucket / 256 % 256 :: req.VBucket % 256 ::
        (req.Body.length + req.Key.length + req.Extras.length) / 16777216 % 256 ::
        (req.Body.length + req.Key.length + req.Extras.length) / 65536 % 256 ::
        (req.Body.length + req.Key.length + req.Extras.length) / 256 % 256 ::
        (req.Body.length + req.Key.length + req.Extras.length) % 256 ::
        req.Opaque / 16777216 % 256 :: req.Opaque / 65536 % 256 ::
        req.Opaque / 256 % 256 :: req.Opaque % 256 ::
        req.Cas / 72057594037927936 % 256 :: req.Cas / 281474976710656 % 256 ::
        req.Cas / 1099511627776 % 256 :: req.Cas / 4294967296 % 256 ::
        req.Cas / 16777216 % 256 :: req.Cas / 65536 % 256 ::
        req.Cas / 256 % 256 :: req.Cas % 256 :: []) ++
      (req.Extras ++ (req.Key ++ req.Body)) := by
  simp [transmitRequestBytes, encBE]

/-- The response packet split into its 24 header bytes and its sections. -/
theorem transmitResponseBytes_split (req : MCRequest) (res : MCResponse) :
    transmitResponseBytes req res =
      (RES_MAGIC :: req.Opcode % 256 ::
        res.Key.length / 256 % 256 :: res.Key.length % 256 ::
        res.Extras.length % 256 :: 0 ::
        res.Status / 256 % 256 :: res.Status % 256 ::
        (res.Body.length + res.Key.length + res.Extras.length) / 16777216 % 256 ::
        (res.Body.length + res.Key.length + res.Extras.length) / 65536 % 256 ::
        (res.Body.length + res.Key.length + res.Extras.length) / 256 % 256 ::
        (res.Body.length + res.Key.length + res.Extras.length) % 256 ::
        req.Opaque / 16777216 % 256 :: req.Opaque / 65536 % 256 ::
        req.Opaque / 256 % 256 :: req.Opaque % 256 ::
        res.Cas / 72057594037927936 % 256 :: res.Cas / 281474976710656 % 256 ::
        res.Cas / 1099511627776 % 256 :: res.Cas / 4294967296 % 256 ::
        res.Cas / 16777216 % 256 :: res.Cas / 65536 % 256 ::
        res.Cas / 256 % 256 :: res.Cas % 256 :: []) ++
      (res.Extras ++ (res.Key ++ res.Body)) := by
  simp [transmitResponseBytes, encBE]

/-- Request-direction round trip: the server ReadPacket on the bytes the
client transmitRequest wrote yields the request back, for in-range fields and
a value no longer than MaxBodyLen, and leaves the rest of the stream. -/
theorem ReadPacket_transmit (req : MCRequest) (rest : List Nat)
    (hop : req.Opcode < 256) (hvb : req.VBucket < 2 ^ 16)
    (hopq : req.Opaque < 2 ^ 32) (hcas : req.Cas < 2 ^ 64)
    (hel : req.Extras.length ≤ 255) (hkl : req.Key.length ≤ 65535)
    (hbl : req.Body.length ≤ MaxBodyLen) :
    ReadPacket (transmitRequestBytes req ++ rest) = .ok (req, rest) := by
  simp only [MaxBodyLen] at hbl
  rw [transmitRequestBytes_split, List.append_assoc, List.append_assoc,
    List.append_assoc]
  unfold ReadPacket
  rw [readFull_hdr]
  simp only [bind, Except.bind]
  rw [grokHeaderReq_eval]
  have hKL : req.Key.length / 256 % 256 * 256 + req.Key.length % 256 =
      req.Key.length := by omega
  have hEL : req.Extras.length % 256 = req.Extras.length := by omega
  have hOP : req.Opcode % 256 = req.Opcode := by omega
  have hVB : req.VBucket / 256 % 256 * 256 + req.VBucket % 256 =
      req.VBucket := by omega
  have hTOT : (((req.Body.length + req.Key.length + req.Extras.length) /
      16777216 % 256 * 256 +
      (req.Body.length + req.Key.length + req.Extras.length) / 65536 % 256) *
      256 +
      (req.Body.length + req.Key.length + req.Extras.length) / 256 % 256) *
      256 + (req.Body.length + req.Key.length + req.Extras.length) % 256 =
      req.Body.length + req.Key.length + req.Extras.length := by omega
  have hOPQ : ((req.Opaque / 16777216 % 256 * 256 +
      req.Opaque / 65536 % 256) * 256 + req.Opaque / 256 % 256) * 256 +
      req.Opaque % 256 = req.Opaque := by omega
  have hCAS : ((((((req.Cas / 72057594037927936 % 256 * 256 +
      req.Cas / 281474976710656 % 256) * 256 +
      req.Cas / 1099511627776 % 256) * 256 +
      req.Cas / 4294967296 % 256) * 256 +
      req.Cas / 16777216 % 256) * 256 +
      req.Cas / 65536 % 256) * 256 + req.Cas / 256 % 256) * 256 +
      req.Cas % 256 = req.Cas := by omega
  rw [hKL, hEL, hOP, hVB, hTOT, hOPQ, hCAS]
  have hBL : u32sub (u32sub
      (req.Body.length + req.Key.length + req.Extras.length)
      req.Key.length) req.Extras.length = req.Body.length := by
    unfold u32sub u32
    omega
  rw [hBL]
  rw [if_neg (by simp only [MaxBodyLen]; omega)]
  dsimp only
  rw [readContentsReq_exact _ req.Extras req.Key req.Body rest
    (by simp) (by simp) (by simp)]

/-- Response-direction round trip: the client getResponse on the bytes the
server transmitResponse wrote yields the section bytes and CAS back, but a
zero opcode and opaque and only the low byte of the status, since the client
decoder assigns neither opcode nor opaque and takes the status from byte 7
alone. -/
theorem getResponse_transmitResponse (req : MCRequest) (res : MCResponse)
    (rest : List Nat) (hcas : res.Cas < 2 ^ 64)
    (hel : res.Extras.length ≤ 255) (hkl : res.Key.length ≤ 65535)
    (hbl : res.Body.length + res.Key.length + res.Extras.length < 2 ^ 32) :
    getResponse (transmitResponseBytes req res ++ rest) =
      .ok ({ res with
              Opcode := 0
              Status := res.Status % 256
              Opaque := 0
              Fatal := false }, rest) := by
  rw [transmitResponseBytes_split, List.append_assoc, List.append_assoc,
    List.append_assoc]
  unfold getResponse
  rw [readFull_hdr]
  simp only [bind, Except.bind]
  rw [grokHeaderRes_eval]
  have hKL : res.Key.length / 256 % 256 * 256 + res.Key.length % 256 =
      res.Key.length := by omega
  have hEL : res.Extras.length % 256 = res.Extras.length := by omega
  have hTOT : (((res.Body.length + res.Key.length + res.Extras.length) /
      16777216 % 256 * 256 +
      (res.Body.length + res.Key.length + res.Extras.length) / 65536 % 256) *
      256 +
      (res.Body.length + res.Key.length + res.Extras.length) / 256 % 256) *
      256 + (res.Body.length + res.Key.length + res.Extras.length) % 256 =
      res.Body.length + res.Key.length + res.Extras.length := by omega
  have hCAS : ((((((res.Cas / 72057594037927936 % 256 * 256 +
      res.Cas / 281474976710656 % 256) * 256 +
      res.Cas / 1099511627776 % 256) * 256 +
      res.Cas / 4294967296 % 256) * 256 +
      res.Cas / 16777216 % 256) * 256 +
      res.Cas / 65536 % 256) * 256 + res.Cas / 256 % 256) * 256 +
      res.Cas % 256 = res.Cas := by omega
  rw [hKL, hEL, hTOT, hCAS]
  have hBL : u32sub (u32sub
      (res.Body.length + res.Key.length + res.Extras.length)
      res.Key.length) res.Extras.length = res.Body.length := by
    unfold u32sub u32
    omega
  rw [hBL]
  dsimp only
  rw [readContentsRes_exact _ res.Extras res.Key res.Body rest
    (by simp) (by simp) (by simp)]

/-- The value length grokHeader computes from a header: the declared total
body length minus key and extras lengths, in wrapping uint32 arithmetic. -/
def declaredBodyLen (hd : List Nat) : Nat :=
  u32sub (u32sub (beVal ((hd.drop 8).take 4)) (beVal ((hd.drop 2).take 2)))
    (byteAt hd 4)

/-- A request whose fields fit the wire ranges and whose value fits
MaxBodyLen. -/
def ReqOk (r : MCRequest) : Prop :=
  r.Opcode < 256 ∧ r.VBucket < 2 ^ 16 ∧ r.Opaque < 2 ^ 32 ∧ r.Cas < 2 ^ 64 ∧
  r.Extras.length ≤ 255 ∧ r.Key.length ≤ 65535 ∧ r.Body.length ≤ MaxBodyLen

instance (r : MCRequest) : Decidable (ReqOk r) := by
  unfold ReqOk
  infer_instance

/-- C1, amended.  Round trip of the codec.  Request direction: the server
ReadPacket on the bytes the client transmitRequest wrote returns exactly the
encoded request (opcode, vbucket, opaque, CAS and the three sections) when the
fields are in range and the value is within MaxBodyLen, which the server
decoder enforces.  Response direction: the client getResponse on the bytes the
server transmitResponse wrote returns the three sections and the CAS, but a
zero opcode, a zero opaque and only the low byte of the status, because the
client header decoder does not assign opcode or opaque and reads the status
from byte 7 alone. -/
theorem C1_roundtrip_amended (req req2 : MCRequest) (res : MCResponse)
    (rest rest2 : List Nat)
    (h1 : req.Opcode < 256) (h2 : req.VBucket < 2 ^ 16)
    (h3 : req.Opaque < 2 ^ 32) (h4 : req.Cas < 2 ^ 64)
    (h5 : req.Extras.length ≤ 255) (h6 : req.Key.length ≤ 65535)
    (h7 : req.Body.length ≤ MaxBodyLen)
    (h8 : res.Cas < 2 ^ 64) (h9 : res.Extras.length ≤ 255)
    (h10 : res.Key.length ≤ 65535)
    (h11 : res.Body.length + res.Key.length + res.Extras.length < 2 ^ 32) :
    ReadPacket (transmitRequestBytes req ++ rest) = .ok (req, rest) ∧
    getResponse (transmitResponseBytes req2 res ++ rest2) =
      .ok ({ res with
              Opcode := 0
              Status := res.Status % 256
              Opaque := 0
              Fatal := false }, rest2) :=
  ⟨ReadPacket_transmit req rest h1 h2 h3 h4 h5 h6 h7,
   getResponse_transmitResponse req2 res rest2 h8 h9 h10 h11⟩

def c1req : MCRequest :=
  { Opcode := 5, Cas := 9, Opaque := 1, VBucket := 3, Extras := [],
    Key := [2], Body := [7] }

def c1res : MCResponse :=
  { Opcode := 0, Status := 0, Opaque := 0, Cas := 0, Extras := [],
    Key := [4], Body := [6], Fatal := false }

/-- C1, counterexample to the claim as stated: the response produced for a
request with opaque 1 decodes on the client with opaque 0, so the decoded
packet does not carry the opaque that was encoded. -/
theorem C1_counterexample :
    (getResponse (transmitResponseBytes c1req c1res)).map
      (fun p => p.1.Opaque) = .ok 0 ∧ c1req.Opaque = 1 :=
  ⟨rfl, rfl⟩

/-- C1 witness: the amended round trip at concrete packets. -/
theorem C1_roundtrip_witness :
    ReadPacket (transmitRequestBytes c1req ++ [9, 9]) = .ok (c1req, [9, 9]) ∧
    getResponse (transmitResponseBytes c1req c1res ++ [8]) =
      .ok ({ c1res with
              Opcode := 0
              Status := c1res.Status % 256
              Opaque := 0
              Fatal := false }, [8]) :=
  C1_roundtrip_amended c1req c1req c1res [9, 9] [8] (by decide) (by decide)
    (by decide) (by decide) (by decide) (by decide) (by decide) (by decide)
    (by decide) (by decide) (by decide)

def c3hdr : List Nat :=
  RES_MAGIC :: 5 :: 0 :: 0 :: 0 :: 0 :: 1 :: 2 :: 0 :: 0 :: 0 :: 0 :: 0 ::
    0 :: 0 :: 7 :: 0 :: 0 :: 0 :: 0 :: 0 :: 0 :: 0 :: 9 :: []

/-- C3: evaluation of the client header decoder on a response header carrying
opcode 5 (byte 1), status 0x0102 = 258 (bytes 6-7), opaque 7 (bytes 12-15)
and CAS 9 (bytes 16-23): the decoded response has opcode 0, opaque 0 and
status 2 (the low byte), against the claim; only the CAS is extracted from
its wire position. -/
theorem C3_code_eval :
    byteAt c3hdr 1 = 5 ∧
    beVal ((c3hdr.drop 6).take 2) = 258 ∧
    beVal ((c3hdr.drop 12).take 4) = 7 ∧
    grokHeaderRes c3hdr =
      .ok { Opcode := 0, Status := 2, Opaque := 0, Cas := 9, Extras := [],
            Key := [], Body := [], Fatal := false } :=
  ⟨rfl, rfl, rfl, rfl⟩

/-- C4: a request header declaring a computed value length above MaxBodyLen
fails with the oversize error carrying that length, on a stream holding
nothing beyond the 24 header bytes (so no further read is attempted, whatever
follows); a header whose computed value length is exactly MaxBodyLen decodes
successfully with a value buffer of exactly MaxBodyLen bytes. -/
theorem C4_oversized_body (hd rest : List Nat) (h24 : hd.length = 24)
    (hmag : byteAt hd 0 = REQ_MAGIC) :
    (MaxBodyLen < declaredBodyLen hd →
      ReadPacket (hd ++ rest) = .error (.tooBig (declaredBodyLen hd))) ∧
    (declaredBodyLen hd = MaxBodyLen →
      ∃ rv, grokHeaderReq hd = .ok rv ∧ rv.Body.length = MaxBodyLen) := by
  have hg : ∀ rv : Except MCErr MCRequest,
      grokHeaderReq hd = rv →
      grokHeaderReq hd = (if MaxBodyLen < declaredBodyLen hd then
        .error (.tooBig (declaredBodyLen hd)) else
        .ok { Opcode := byteAt hd 1
              Cas := beVal ((hd.drop 16).take 8)
              Opaque := beVal ((hd.drop 12).take 4)
              VBucket := beVal ((hd.drop 6).take 2)
              Extras := List.replicate (byteAt hd 4) 0
              Key := List.replicate (beVal ((hd.drop 2).take 2)) 0
              Body := List.replicate (declaredBodyLen hd) 0 }) := by
    intro rv _
    unfold grokHeaderReq declaredBodyLen
    rw [if_neg (by simp [hmag])]
  constructor
  · intro hover
    unfold ReadPacket
    rw [readFull_exact hd rest HDR_LEN h24]
    simp only [bind, Except.bind]
    rw [hg _ rfl, if_pos hover]
  · intro hexact
    have hok := hg _ rfl
    rw [if_neg (by omega)] at hok
    exact ⟨_, hok, by simp [hexact]⟩

def c4hdrOver : List Nat :=
  REQ_MAGIC :: 0 :: 0 :: 0 :: 0 :: 0 :: 0 :: 0 :: 0 :: 15 :: 66 :: 65 ::
    0 :: 0 :: 0 :: 0 :: 0 :: 0 :: 0 :: 0 :: 0 :: 0 :: 0 :: 0 :: []

def c4hdrMax : List Nat :=
  REQ_MAGIC :: 0 :: 0 :: 0 :: 0 :: 0 :: 0 :: 0 :: 0 :: 15 :: 66 :: 64 ::
    0 :: 0 :: 0 :: 0 :: 0 :: 0 :: 0 :: 0 :: 0 :: 0 :: 0 :: 0 :: []

/-- C4 witness: a declared body of 1000001 bytes is rejected with the
oversize error on a header-only stream, and a declared body of exactly
1000000 bytes decodes with a value buffer of 1000000 bytes. -/
theorem C4_oversized_body_witness :
    ReadPacket (c4hdrOver ++ []) = .error (.tooBig 1000001) ∧
    (∃ rv, grokHeaderReq c4hdrMax = .ok rv ∧ rv.Body.length = MaxBodyLen) :=
  ⟨(C4_oversized_body c4hdrOver [] rfl rfl).1 (by decide),
   (C4_oversized_body c4hdrMax [] rfl rfl).2 (by decide)⟩

def c5req : MCRequest :=
  { Opcode := 1, Cas := 0, Opaque := 0, VBucket := 0, Extras := [],
    Key := [107], Body := [] }

def c5res : MCResponse :=
  { Opcode := 0, Status := 0, Opaque := 0, Cas := 0, Extras := [],
    Key := [], Body := [118], Fatal := false }

/-- C5: on a connection whose underlying write fails at once (capacity 0),
transmitRequest still returns no error to its caller (the flush error is
discarded), Client.Transmit likewise surfaces nothing while no byte was
delivered, and the server dispatch step returns true (continue the loop)
although the response write delivered nothing: write failures are silently
swallowed on both sides, against the claim. -/
theorem C5_code_eval :
    transmitRequestOn 0 c5req = (none, []) ∧
    Transmit 0 c5req = [] ∧
    handleMessageOn 0 (fun _ => c5res) (transmitRequestBytes c5req) =
      (true, []) :=
  ⟨rfl, rfl, rfl⟩

/-- C6: a 24-byte header whose first byte is not the direction magic is
rejected by either decoder with a BadMagic error carrying exactly that first
byte, whatever the other 23 bytes hold and whatever follows the header on the
stream (nothing beyond the header is consumed or needed). -/
theorem C6_magic_reject (hd rest : List Nat) (h24 : hd.length = 24) :
    (byteAt hd 0 ≠ REQ_MAGIC →
      ReadPacket (hd ++ rest) = .error (.badMagic (byteAt hd 0))) ∧
    (byteAt hd 0 ≠ RES_MAGIC →
      getResponse (hd ++ rest) = .error (.badMagic (byteAt hd 0))) := by
  constructor
  · intro hreq
    unfold ReadPacket
    rw [readFull_exact hd rest HDR_LEN h24]
    simp only [bind, Except.bind]
    unfold grokHeaderReq
    rw [if_pos hreq]
  · intro hres
    unfold getResponse
    rw [readFull_exact hd rest HDR_LEN h24]
    simp only [bind, Except.bind]
    unfold grokHeaderRes
    rw [if_pos hres]

def c6hdr : List Nat :=
  66 :: 5 :: 0 :: 1 :: 2 :: 0 :: 0 :: 3 :: 0 :: 0 :: 0 :: 9 :: 0 :: 0 ::
    0 :: 0 :: 0 :: 0 :: 0 :: 0 :: 0 :: 0 :: 0 :: 4 :: []

/-- C6 witness: a header starting with byte 0x42 is rejected by both sides
with BadMagic 0x42. -/
theorem C6_magic_reject_witness :
    ReadPacket (c6hdr ++ [1, 2, 3]) = .error (.badMagic 66) ∧
    getResponse (c6hdr ++ [1, 2, 3]) = .error (.badMagic 66) :=
  ⟨(C6_magic_reject c6hdr [1, 2, 3] rfl).1 (by decide),
   (C6_magic_reject c6hdr [1, 2, 3] rfl).2 (by decide)⟩

/-- C9: on every response packet the server emits, bytes 12-15 carry the
opaque of the request that produced it and byte 1 carries that request
opcode, whatever the handler put in the response. -/
theorem C9_opaque_echo (req : MCRequest) (res : MCResponse)
    (hopq : req.Opaque < 2 ^ 32) (hop : req.Opcode < 256) :
    beVal (((transmitResponseBytes req res).drop 12).take 4) = req.Opaque ∧
    byteAt (transmitResponseBytes req res) 1 = req.Opcode := by
  rw [transmitResponseBytes_split]
  constructor
  · have hsh : ((((RES_MAGIC :: req.Opcode % 256 ::
        res.Key.length / 256 % 256 :: res.Key.length % 256 ::
        res.Extras.length % 256 :: 0 ::
        res.Status / 256 % 256 :: res.Status % 256 ::
        (res.Body.length + res.Key.length + res.Extras.length) / 16777216 % 256 ::
        (res.Body.length + res.Key.length + res.Extras.length) / 65536 % 256 ::
        (res.Body.length + res.Key.length + res.Extras.length) / 256 % 256 ::
        (res.Body.length + res.Key.length + res.Extras.length) % 256 ::
        req.Opaque / 16777216 % 256 :: req.Opaque / 65536 % 256 ::
        req.Opaque / 256 % 256 :: req.Opaque % 256 ::
        res.Cas / 72057594037927936 % 256 :: res.Cas / 281474976710656 % 256 ::
        res.Cas / 1099511627776 % 256 :: res.Cas / 4294967296 % 256 ::
        res.Cas / 16777216 % 256 :: res.Cas / 65536 % 256 ::
        res.Cas / 256 % 256 :: res.Cas % 256 :: []) ++
        (res.Extras ++ (res.Key ++ res.Body))).drop 12).take 4) =
        [req.Opaque / 16777216 % 256, req.Opaque / 65536 % 256,
         req.Opaque / 256 % 256, req.Opaque % 256] := rfl
    rw [hsh, beVal_four]
    omega
  · show req.Opcode % 256 = req.Opcode
    omega

def c9req : MCRequest :=
  { Opcode := 17, Cas := 0, Opaque := 305419896, VBucket := 2, Extras := [],
    Key := [], Body := [] }

def c9res : MCResponse :=
  { Opcode := 0, Status := 1, Opaque := 0, Cas := 4, Extras := [3],
    Key := [65], Body := [66, 67], Fatal := false }

/-- C9 witness: opaque 305419896 and opcode 17 read back from the emitted
bytes. -/
theorem C9_opaque_echo_witness :
    beVal (((transmitResponseBytes c9req c9res).drop 12).take 4) =
      c9req.Opaque ∧
    byteAt (transmitResponseBytes c9req c9res) 1 = c9req.Opcode :=
  C9_opaque_echo c9req c9res (by decide) (by decide)

theorem foldl_beVal_lt (l : List Nat) (hb : ∀ b ∈ l, b < 256) (a : Nat) :
    l.foldl (fun x b => x * 256 + b) a < (a + 1) * 256 ^ l.length := by
  induction l generalizing a with
  | nil => simp
  | cons b t ih =>
    simp only [List.foldl_cons, List.length_cons]
    have hb0 : b < 256 := hb b (by simp)
    have ht : ∀ x ∈ t, x < 256 := fun x hx => hb x (by simp [hx])
    calc t.foldl (fun x c => x * 256 + c) (a * 256 + b) <
        (a * 256 + b + 1) * 256 ^ t.length := ih ht _
      _ ≤ ((a + 1) * 256) * 256 ^ t.length := by
          apply Nat.mul_le_mul_right
          omega
      _ = (a + 1) * 256 ^ (t.length + 1) := by ring

theorem beVal_lt (l : List Nat) (hb : ∀ b ∈ l, b < 256) :
    beVal l < 256 ^ l.length := by
  have h := foldl_beVal_lt l hb 0
  simpa [beVal] using h

theorem beVal_take_lt (l : List Nat) (n i : Nat) (hb : ∀ b ∈ l, b < 256)
    (hi : i ≤ n) : beVal ((l.drop i).take (n - i)) < 256 ^ (n - i) := by
  have hsub : ∀ b ∈ (l.drop i).take (n - i), b < 256 := fun b hx =>
    hb b (List.drop_subset i l (List.take_subset (n - i) (l.drop i) hx))
  have hlt := beVal_lt _ hsub
  have hlen : ((l.drop i).take (n - i)).length ≤ n - i := by
    simp [List.length_take]
  calc beVal ((l.drop i).take (n - i)) <
      256 ^ ((l.drop i).take (n - i)).length := hlt
    _ ≤ 256 ^ (n - i) := Nat.pow_le_pow_right (by norm_num) hlen

theorem byteAt_lt (l : List Nat) (i : Nat) (hb : ∀ b ∈ l, b < 256) :
    byteAt l i < 256 := by
  unfold byteAt
  rcases Nat.lt_or_ge i l.length with h | h
  · rw [List.getD_eq_getElem l 0 h]
    exact hb _ (List.getElem_mem h)
  · rw [List.getD_eq_default l 0 h]
    omega

/-- C2, amended.  The server decoder computes the value length by wrapping
uint32 subtraction; because the MaxBodyLen check rejects every wrapped
(negative) result, each successfully decoded request satisfies
len(extras) + len(key) + len(value) == totalBodyLength as exact arithmetic.
(The client decoder performs the same wrapping subtraction with no check, and
a response header with total below key+extras decodes successfully while
violating the invariant; see the counterexample.) -/
theorem C2_server_invariant (hd : List Nat) (rv : MCRequest)
    (hb : ∀ b ∈ hd, b < 256) (hok : grokHeaderReq hd = .ok rv) :
    rv.Extras.length + rv.Key.length + rv.Body.length =
      beVal ((hd.drop 8).take 4) := by
  have hkl : beVal ((hd.drop 2).take 2) < 65536 := by
    have h := beVal_take_lt hd 4 2 hb (by omega)
    norm_num at h
    exact h
  have htot : beVal ((hd.drop 8).take 4) < 4294967296 := by
    have h := beVal_take_lt hd 12 8 hb (by omega)
    norm_num at h
    exact h
  have hext : byteAt hd 4 < 256 := byteAt_lt hd 4 hb
  unfold grokHeaderReq at hok
  by_cases hmag : byteAt hd 0 ≠ REQ_MAGIC
  · rw [if_pos hmag] at hok
    exact absurd hok (by simp)
  · rw [if_neg hmag] at hok
    simp only [gt_iff_lt] at hok
    split at hok
    · exact absurd hok (by simp)
    · rename_i hsmall
      injection hok with hrv
      rw [← hrv]
      simp only [List.length_replicate]
      unfold u32sub u32 at hsmall ⊢
      simp only [MaxBodyLen, Nat.not_lt] at hsmall ⊢
      omega

def c2hdr : List Nat :=
  RES_MAGIC :: 0 :: 0 :: 1 :: 0 :: 0 :: 0 :: 0 :: 0 :: 0 :: 0 :: 0 :: 0 ::
    0 :: 0 :: 0 :: 0 :: 0 :: 0 :: 0 :: 0 :: 0 :: 0 :: 0 :: []

/-- C2, counterexample to the claim as stated: the client decoder accepts a
response header declaring key length 1 and total body length 0; the wrapped
subtraction sizes the value at 2^32 - 1 bytes, so the decoded section lengths
sum to 2^32, not to the declared total 0, and no rejection happens. -/
theorem C2_counterexample :
    grokHeaderRes c2hdr =
      .ok { Opcode := 0, Status := 0, Opaque := 0, Cas := 0,
            Extras := List.replicate 0 0, Key := List.replicate 1 0,
            Body := List.replicate 4294967295 0, Fatal := false } ∧
    (List.replicate 0 (0 : Nat)).length + (List.replicate 1 (0 : Nat)).length +
      (List.replicate 4294967295 (0 : Nat)).length = 4294967296 ∧
    beVal ((c2hdr.drop 8).take 4) = 0 := by
  refine ⟨?_, ?_, ?_⟩
  · have h := grokHeaderRes_eval 0 0 1 0 0 0 0 0 0 0 0 0 0 0 0 0 0 0 0 0 0
      0 0
    rw [show c2hdr = RES_MAGIC :: 0 :: 0 :: 1 :: 0 :: 0 :: 0 :: 0 :: 0 ::
      0 :: 0 :: 0 :: 0 :: 0 :: 0 :: 0 :: 0 :: 0 :: 0 :: 0 :: 0 :: 0 :: 0 ::
      0 :: [] from rfl]
    rw [h]
    norm_num [u32sub, u32]
  · rw [List.length_replicate, List.length_replicate, List.length_replicate]
  · rfl

def c2whdr : List Nat :=
  REQ_MAGIC :: 0 :: 0 :: 1 :: 1 :: 0 :: 0 :: 0 :: 0 :: 0 :: 0 :: 2 :: 0 ::
    0 :: 0 :: 0 :: 0 :: 0 :: 0 :: 0 :: 0 :: 0 :: 0 :: 0 :: []

def c2wrv : MCRequest :=
  { Opcode := 0, Cas := 0, Opaque := 0, VBucket := 0, Extras := [0],
    Key := [0], Body := [] }

/-- C2 witness: a server-decoded request with key length 1, extras length 1
and total 2 has sections summing to the declared total. -/
theorem C2_server_invariant_witness :
    c2wrv.Extras.length + c2wrv.Key.length + c2wrv.Body.length =
      beVal ((c2whdr.drop 8).take 4) :=
  C2_server_invariant c2whdr c2wrv (by decide) (by rfl)

/-- C10: neither packet transmitter enforces the section limits: the
key-length field holds len(key) mod 2^16 and the extras-length field holds
len(extras) mod 2^8 (on both the request and the response wire), while the
whole extras, key and value sections are still written after the 24 header
bytes, so an over-long key or extras yields a header length field that
disagrees with the actual section, and no error is raised. -/
theorem C10_encoders_truncate (req : MCRequest) (res : MCResponse) :
    beVal (((transmitRequestBytes req).drop 2).take 2) =
      req.Key.length % 65536 ∧
    byteAt (transmitRequestBytes req) 4 = req.Extras.length % 256 ∧
    (transmitRequestBytes req).length =
      24 + (req.Extras.length + (req.Key.length + req.Body.length)) ∧
    (transmitRequestBytes req).drop 24 =
      req.Extras ++ (req.Key ++ req.Body) ∧
    beVal (((transmitResponseBytes req res).drop 2).take 2) =
      res.Key.length % 65536 ∧
    byteAt (transmitResponseBytes req res) 4 = res.Extras.length % 256 ∧
    (transmitResponseBytes req res).length =
      24 + (res.Extras.length + (res.Key.length + res.Body.length)) ∧
    (65535 < req.Key.length →
      beVal (((transmitRequestBytes req).drop 2).take 2) ≠ req.Key.length) ∧
    (255 < req.Extras.length →
      byteAt (transmitRequestBytes req) 4 ≠ req.Extras.length) := by
  have hkey : beVal (((transmitRequestBytes req).drop 2).take 2) =
      req.Key.length % 65536 := by
    rw [transmitRequestBytes_split]
    show beVal [req.Key.length / 256 % 256, req.Key.length % 256] = _
    rw [beVal_two]
    omega
  have hext : byteAt (transmitRequestBytes req) 4 =
      req.Extras.length % 256 := by
    rw [transmitRequestBytes_split]
    rfl
  refine ⟨hkey, hext, ?_, ?_, ?_, ?_, ?_, ?_, ?_⟩
  · rw [transmitRequestBytes_split]
    simp only [List.length_append, List.length_cons, List.length_nil]
  · rw [transmitRequestBytes_split]
    rfl
  · rw [transmitResponseBytes_split]
    show beVal [res.Key.length / 256 % 256, res.Key.length % 256] = _
    rw [beVal_two]
    omega
  · rw [transmitResponseBytes_split]
    rfl
  · rw [transmitResponseBytes_split]
    simp only [List.length_append, List.length_cons, List.length_nil]
  · intro hbig
    rw [hkey]
    omega
  · intro hbig
    rw [hext]
    omega

def c10req : MCRequest :=
  { Opcode := 2, Cas := 0, Opaque := 0, VBucket := 0,
    Extras := List.replicate 256 0, Key := List.replicate 65536 0,
    Body := [] }

def c10res : MCResponse :=
  { Opcode := 0, Status := 0, Opaque := 0, Cas := 0, Extras := [], Key := [],
    Body := [], Fatal := false }

/-- C10 witness: with a 65536-byte key and 256-byte extras, the header fields
read back 0, disagreeing with the true section lengths. -/
theorem C10_encoders_truncate_witness :
    beVal (((transmitRequestBytes c10req).drop 2).take 2) ≠
      c10req.Key.length ∧
    byteAt (transmitRequestBytes c10req) 4 ≠ c10req.Extras.length := by
  obtain ⟨-, -, -, -, -, -, -, h8, h9⟩ := C10_encoders_truncate c10req c10res
  have hk : 65535 < c10req.Key.length := by
    show 65535 < (List.replicate 65536 (0 : Nat)).length
    rw [List.length_replicate]
    norm_num
  have he : 255 < c10req.Extras.length := by
    show 255 < (List.replicate 256 (0 : Nat)).length
    rw [List.length_replicate]
    norm_num
  exact ⟨h8 hk, h9 he⟩

theorem ReadPacket_nil : ReadPacket ([] : List Nat) = .error .eof := rfl

theorem getResponse_nil : getResponse ([] : List Nat) = .error .eof := rfl

/-- A request header with a wrong first byte makes the server packet read
fail with BadMagic carrying that byte, whatever follows. -/
theorem ReadPacket_badMagic (hd rest : List Nat) (h24 : hd.length = 24)
    (hm : byteAt hd 0 ≠ REQ_MAGIC) :
    ReadPacket (hd ++ rest) = .error (.badMagic (byteAt hd 0)) := by
  unfold ReadPacket
  rw [readFull_exact hd rest HDR_LEN h24]
  simp only [bind, Except.bind]
  unfold grokHeaderReq
  rw [if_pos hm]

/-- A response header with a wrong first byte makes the client response read
fail with BadMagic carrying that byte, whatever follows. -/
theorem getResponse_badMagic (hd rest : List Nat) (h24 : hd.length = 24)
    (hm : byteAt hd 0 ≠ RES_MAGIC) :
    getResponse (hd ++ rest) = .error (.badMagic (byteAt hd 0)) := by
  unfold getResponse
  rw [readFull_exact hd rest HDR_LEN h24]
  simp only [bind, Except.bind]
  unfold grokHeaderRes
  rw [if_pos hm]

theorem statsLoop_err (s : List Nat) (e : MCErr)
    (h : getResponse s = .error e) : statsLoop s = ([], some e) := by
  rw [statsLoop]
  split
  · rename_i e2 he
    rw [h] at he
    cases he
    rfl
  · rename_i res s2 he
    rw [h] at he
    cases he

theorem statsLoop_stop (s : List Nat) (res : MCResponse) (s2 : List Nat)
    (h : getResponse s = .ok (res, s2)) (hk : res.Key = []) :
    statsLoop s = ([], none) := by
  rw [statsLoop]
  split
  · rename_i e2 he
    rw [h] at he
    cases he
  · rename_i res2 s3 he
    rw [h] at he
    cases he
    rw [if_pos hk]

theorem statsLoop_cons (s : List Nat) (res : MCResponse) (s2 : List Nat)
    (h : getResponse s = .ok (res, s2)) (hk : res.Key ≠ []) :
    statsLoop s =
      ((res.Key, res.Body) :: (statsLoop s2).1, (statsLoop s2).2) := by
  rw [statsLoop]
  split
  · rename_i e2 he
    rw [h] at he
    cases he
  · rename_i res2 s3 he
    rw [h] at he
    cases he
    rw [if_neg hk]

/-- The STAT request Client.Stats sends: opcode STAT with opaque 918494. -/
def statReq : MCRequest :=
  { Opcode := 16, Cas := 0, Opaque := 918494, VBucket := 0, Extras := [],
    Key := [], Body := [] }

/-- One stat response packet carrying (key, value), as the server transmitter
would emit it for the STAT exchange. -/
def statValPacket (k v : List Nat) : List Nat :=
  transmitResponseBytes statReq
    { Opcode := 0, Status := 0, Opaque := 0, Cas := 0, Extras := [],
      Key := k, Body := v, Fatal := false }

theorem getResponse_statValPacket (k v rest : List Nat)
    (hk : k.length ≤ 65535) (hs : v.length + k.length < 2 ^ 32) :
    getResponse (statValPacket k v ++ rest) =
      .ok ({ Opcode := 0, Status := 0, Opaque := 0, Cas := 0, Extras := [],
             Key := k, Body := v, Fatal := false }, rest) := by
  unfold statValPacket
  have h := getResponse_transmitResponse statReq
    { Opcode := 0, Status := 0, Opaque := 0, Cas := 0, Extras := [],
      Key := k, Body := v, Fatal := false } rest (by norm_num) (by simp)
    (by simpa using hk) (by simpa using hs)
  simpa using h

/-- The Stats loop consumes one well-formed (key, value) packet per entry:
running it on the packets for `pairs` followed by any tail accumulates
exactly `pairs` in order in front of whatever the loop does on the tail. -/
theorem statsLoop_packets (pairs : List (List Nat × List Nat))
    (tail : List Nat)
    (hc : ∀ p ∈ pairs,
      p.1 ≠ [] ∧ p.1.length ≤ 65535 ∧ p.2.length + p.1.length < 2 ^ 32) :
    statsLoop ((pairs.map fun p => statValPacket p.1 p.2).flatten ++ tail) =
      (pairs ++ (statsLoop tail).1, (statsLoop tail).2) := by
  induction pairs with
  | nil => simp
  | cons p ps ih =>
    obtain ⟨k, v⟩ := p
    obtain ⟨hk0, hk1, hk2⟩ := hc (k, v) (by simp)
    have hrest : ∀ q ∈ ps,
        q.1 ≠ [] ∧ q.1.length ≤ 65535 ∧ q.2.length + q.1.length < 2 ^ 32 :=
      fun q hq => hc q (by simp [hq])
    simp only [List.map_cons, List.flatten_cons, List.append_assoc]
    rw [statsLoop_cons _ _ _ (getResponse_statValPacket k v _ hk1 hk2)
      (by simpa using hk0)]
    rw [ih hrest]
    simp

/-- The empty-key sentinel packet stops the Stats loop with no entry and
nothing further read, whatever follows it. -/
theorem statsLoop_sentinel (junk : List Nat) :
    statsLoop (statValPacket [] [] ++ junk) = ([], none) :=
  statsLoop_stop _ _ _
    (getResponse_statValPacket [] [] junk (by norm_num) (by norm_num)) rfl

/-- C7: the Stats response loop on a stream of N well-formed (key, value)
packets with non-empty keys followed by the empty-key sentinel returns
exactly those N entries in arrival order, excludes the sentinel and reads
nothing after it (the result is the same for every suffix after the
sentinel); and if after those N packets the next response read fails, the N
entries accumulated so far are returned together with the error. -/
theorem C7_stats_loop (pairs : List (List Nat × List Nat))
    (junk bad : List Nat) (e : MCErr)
    (hc : ∀ p ∈ pairs,
      p.1 ≠ [] ∧ p.1.length ≤ 65535 ∧ p.2.length + p.1.length < 2 ^ 32)
    (hbad : getResponse bad = .error e) :
    statsLoop ((pairs.map fun p => statValPacket p.1 p.2).flatten ++
        (statValPacket [] [] ++ junk)) = (pairs, none) ∧
    statsLoop ((pairs.map fun p => statValPacket p.1 p.2).flatten ++ bad) =
      (pairs, some e) := by
  constructor
  · rw [statsLoop_packets pairs _ hc, statsLoop_sentinel]
    simp
  · rw [statsLoop_packets pairs bad hc, statsLoop_err bad e hbad]
    simp

/-- C7 witness: two stat entries, then the sentinel with trailing junk; and
the same two entries followed by a failing (empty) stream. -/
theorem C7_stats_loop_witness :
    statsLoop ((([([104], [118]), ([105], [119])].map
        fun p => statValPacket p.1 p.2).flatten ++
        (statValPacket [] [] ++ [7, 7]))) =
      ([([104], [118]), ([105], [119])], none) ∧
    statsLoop ((([([104], [118]), ([105], [119])].map
        fun p => statValPacket p.1 p.2).flatten ++ [])) =
      ([([104], [118]), ([105], [119])], some .eof) :=
  C7_stats_loop [([104], [118]), ([105], [119])] [7, 7] [] .eof
    (by decide) getResponse_nil

theorem handleMessageTr_ok (handler : MCRequest → MCResponse)
    (s : List Nat) (req : MCRequest) (s2 : List Nat)
    (h : ReadPacket s = .ok (req, s2)) (hf : (handler req).Fatal = false) :
    handleMessageTr handler s =
      (true, s2,
        [.readEv req, .writeEv (transmitResponseBytes req (handler req))]) := by
  unfold handleMessageTr
  rw [h]
  dsimp only
  rw [if_neg (by simp [hf])]

theorem handleMessageTr_fatal (handler : MCRequest → MCResponse)
    (s : List Nat) (req : MCRequest) (s2 : List Nat)
    (h : ReadPacket s = .ok (req, s2)) (hf : (handler req).Fatal = true) :
    handleMessageTr handler s = (false, s2, [.readEv req]) := by
  unfold handleMessageTr
  rw [h]
  dsimp only
  rw [if_pos hf]

theorem handleMessageTr_err (handler : MCRequest → MCResponse)
    (s : List Nat) (e : MCErr) (h : ReadPacket s = .error e) :
    handleMessageTr handler s = (false, s, []) := by
  unfold handleMessageTr
  rw [h]

theorem handleConn_cons (handler : MCRequest → MCResponse) (s : List Nat)
    (req : MCRequest) (s2 : List Nat)
    (h : ReadPacket s = .ok (req, s2)) (hf : (handler req).Fatal = false) :
    handleConn handler s =
      .readEv req :: .writeEv (transmitResponseBytes req (handler req)) ::
        handleConn handler s2 := by
  rw [handleConn]
  split
  · rename_i s3 evs he
    rw [handleMessageTr_ok handler s req s2 h hf] at he
    cases he
    rfl
  · rename_i x evs hb
    rw [handleMessageTr_ok handler s req s2 h hf] at hb
    cases hb

theorem handleConn_fatal (handler : MCRequest → MCResponse) (s : List Nat)
    (req : MCRequest) (s2 : List Nat)
    (h : ReadPacket s = .ok (req, s2)) (hf : (handler req).Fatal = true) :
    handleConn handler s = [.readEv req] := by
  rw [handleConn]
  split
  · rename_i s3 evs he
    rw [handleMessageTr_fatal handler s req s2 h hf] at he
    cases he
  · rename_i x evs hb
    rw [handleMessageTr_fatal handler s req s2 h hf] at hb
    cases hb
    rfl

theorem handleConn_err (handler : MCRequest → MCResponse) (s : List Nat)
    (e : MCErr) (h : ReadPacket s = .error e) :
    handleConn handler s = [] := by
  rw [handleConn]
  split
  · rename_i s3 evs he
    rw [handleMessageTr_err handler s e h] at he
    cases he
  · rename_i x evs hb
    rw [handleMessageTr_err handler s e h] at hb
    cases hb
    rfl

/-- C8: the per-connection dispatch trace.  (a) With two well-formed request
packets queued and a handler whose responses are not fatal, the trace is
read packet 1, write response 1, read packet 2, write response 2: the second
packet is only read after the first response has been written.  (b) When the
handler flags the first response fatal, the trace stops at reading packet 1:
no byte of that response is written and the rest of the stream is never read.
(c) When the first header has a wrong magic, the trace is empty: the
connection closes with no response attempted. -/
theorem C8_dispatcher (r1 r2 : MCRequest) (handler : MCRequest → MCResponse)
    (hd rest : List Nat) (h1 : ReqOk r1) (h2 : ReqOk r2) :
    ((handler r1).Fatal = false → (handler r2).Fatal = false →
      handleConn handler
          (transmitRequestBytes r1 ++ transmitRequestBytes r2) =
        [.readEv r1, .writeEv (transmitResponseBytes r1 (handler r1)),
         .readEv r2, .writeEv (transmitResponseBytes r2 (handler r2))]) ∧
    ((handler r1).Fatal = true →
      handleConn handler (transmitRequestBytes r1 ++ rest) = [.readEv r1]) ∧
    (hd.length = 24 → byteAt hd 0 ≠ REQ_MAGIC →
      handleConn handler (hd ++ rest) = []) := by
  obtain ⟨a1, a2, a3, a4, a5, a6, a7⟩ := h1
  obtain ⟨b1, b2, b3, b4, b5, b6, b7⟩ := h2
  have hrp1 : ReadPacket (transmitRequestBytes r1 ++ transmitRequestBytes r2) =
      .ok (r1, transmitRequestBytes r2) :=
    ReadPacket_transmit r1 _ a1 a2 a3 a4 a5 a6 a7
  have hrp2 : ReadPacket (transmitRequestBytes r2) = .ok (r2, []) := by
    have h := ReadPacket_transmit r2 [] b1 b2 b3 b4 b5 b6 b7
    rwa [List.append_nil] at h
  refine ⟨?_, ?_, ?_⟩
  · intro hf1 hf2
    rw [handleConn_cons handler _ r1 _ hrp1 hf1,
      handleConn_cons handler _ r2 _ hrp2 hf2,
      handleConn_err handler _ .eof ReadPacket_nil]
  · intro hfat
    exact handleConn_fatal handler _ r1 rest
      (ReadPacket_transmit r1 rest a1 a2 a3 a4 a5 a6 a7) hfat
  · intro h24 hm
    exact handleConn_err handler _ _ (ReadPacket_badMagic hd rest h24 hm)

def c8req1 : MCRequest :=
  { Opcode := 0, Cas := 0, Opaque := 11, VBucket := 0, Extras := [],
    Key := [97], Body := [] }

def c8req2 : MCRequest :=
  { Opcode := 4, Cas := 0, Opaque := 12, VBucket := 0, Extras := [],
    Key := [98], Body := [] }

def c8resOk : MCResponse :=
  { Opcode := 0, Status := 0, Opaque := 0, Cas := 0, Extras := [],
    Key := [], Body := [111], Fatal := false }

def c8resFatal : MCResponse :=
  { Opcode := 0, Status := 1, Opaque := 0, Cas := 0, Extras := [],
    Key := [], Body := [], Fatal := true }

def c8hdrBad : List Nat :=
  7 :: 0 :: 0 :: 0 :: 0 :: 0 :: 0 :: 0 :: 0 :: 0 :: 0 :: 0 :: 0 :: 0 ::
    0 :: 0 :: 0 :: 0 :: 0 :: 0 :: 0 :: 0 :: 0 :: 0 :: []

/-- C8 witness: the three dispatch scenarios at concrete packets and
handlers. -/
theorem C8_dispatcher_witness :
    handleConn (fun _ => c8resOk)
        (transmitRequestBytes c8req1 ++ transmitRequestBytes c8req2) =
      [.readEv c8req1, .writeEv (transmitResponseBytes c8req1 c8resOk),
       .readEv c8req2, .writeEv (transmitResponseBytes c8req2 c8resOk)] ∧
    handleConn (fun _ => c8resFatal)
        (transmitRequestBytes c8req1 ++ [1, 2]) = [.readEv c8req1] ∧
    handleConn (fun _ => c8resOk) (c8hdrBad ++ [3]) = [] :=
  ⟨(C8_dispatcher c8req1 c8req2 (fun _ => c8resOk) c8hdrBad []
      (by decide) (by decide)).1 rfl rfl,
   (C8_dispatcher c8req1 c8req2 (fun _ => c8resFatal) c8hdrBad [1, 2]
      (by decide) (by decide)).2.1 rfl,
   (C8_dispatcher c8req1 c8req2 (fun _ => c8resOk) c8hdrBad [3]
      (by decide) (by decide)).2.2 rfl (by decide)⟩

end Gomemcached
